/-
Verification of the MSA backend (marketing-presentation RAG service) against
its natural-language specification.

Each definition below is a shallow embedding of a function of the Python
source, with a doc comment naming the file and symbol it embeds.  Text is
modelled as List Char, file bytes as List Nat, database tables as lists of
rows, and the hosted-LLM / pgvector boundaries as parameters.  Python
exceptions are modelled with Except.
-/
import Mathlib

set_option maxRecDepth 40000

namespace MSA

/-! ## Text processing: backend/app/utils/text_processor.py -/

/-- A sentence-ending character of the regex class [.!?] used in
process_text_segment (text_processor.py line 163). -/
def isPunct (c : Char) : Bool :=
  c = '.' || c = '!' || c = '?'

/-- A whitespace character as matched by the regex class backslash-s and by
str.strip (ASCII range). -/
def isSpaceChar (c : Char) : Bool :=
  c = ' ' || c = '\t' || c = '\n' || c = '\r' || c = '\x0b' || c = '\x0c'

/-- text_segment.replace of a newline by a space (text_processor.py line 164). -/
def normalizeNewlines (l : List Char) : List Char :=
  l.map (fun c => if c = '\n' then ' ' else c)

/-- State machine for re.split on the pattern [.!?]+ then one-or-more
whitespace (text_processor.py lines 163-164).  acc holds the current piece
reversed, pp a pending run of punctuation (reversed), and inWs is true while
consuming the whitespace of a confirmed match.  A punctuation run followed by
whitespace is a match and is removed; a punctuation run not followed by
whitespace stays inside the piece, exactly as the regex behaves. -/
def reSplitAux : List Char → List Char → List Char → Bool → List (List Char)
  | [], acc, pp, _ => [(pp ++ acc).reverse]
  | c :: rest, acc, pp, inWs =>
    if inWs then
      if isSpaceChar c then reSplitAux rest acc pp true
      else if isPunct c then reSplitAux rest [] [c] false
      else reSplitAux rest [c] [] false
    else if pp.isEmpty then
      if isPunct c then reSplitAux rest acc [c] false
      else reSplitAux rest (c :: acc) [] false
    else
      if isPunct c then reSplitAux rest acc (c :: pp) false
      else if isSpaceChar c then acc.reverse :: reSplitAux rest [] [] true
      else reSplitAux rest (c :: (pp ++ acc)) [] false

/-- re.split of the sentence pattern over a text segment. -/
def reSplit (l : List Char) : List (List Char) :=
  reSplitAux l [] [] false

/-- Python str.strip: remove leading and trailing whitespace. -/
def stripChars (l : List Char) : List Char :=
  ((l.dropWhile isSpaceChar).reverse.dropWhile isSpaceChar).reverse

/-- The sentence list built from the raw split pieces (text_processor.py lines
166-172): pieces that are empty after stripping are dropped, every kept piece
is stripped, and every piece other than the last raw piece gets a literal
plus sign appended (the code's replacement for the removed sentence ending). -/
def buildSentences : List (List Char) → List (List Char)
  | [] => []
  | [s] => if (stripChars s).isEmpty then [] else [stripChars s]
  | s :: rest =>
    if (stripChars s).isEmpty then buildSentences rest
    else (stripChars s ++ ['+']) :: buildSentences rest

/-- Total character count of a list of sentences; this is the quantity the
Python code tracks in current_size (it never counts the joining spaces). -/
def sumLen (l : List (List Char)) : Nat :=
  (l.map List.length).sum

/-- Python single-space str.join over a list of strings. -/
def joinSpace : List (List Char) → List Char
  | [] => []
  | [s] => s
  | s :: rest => s ++ ' ' :: joinSpace rest

/-- The overlap loop of text_processor.py lines 190-196, walking the closed
chunk backwards (input is current_chunk reversed) and taking whole sentences
while the accumulated size stays at or under overlap.  Result is in the same
reversed order and gets reversed by the caller. -/
def takeOverlapRev (overlap : Nat) : Nat → List (List Char) → List (List Char)
  | _, [] => []
  | size, s :: rest =>
    if overlap < size + s.length then []
    else s :: takeOverlapRev overlap (size + s.length) rest

/-- The greedy accumulation loop of text_processor.py lines 178-202: sentences
are appended to the current chunk; when appending would push the tracked size
over maxSize and the current chunk is nonempty, the current chunk is emitted
as its space-join and the overlap sentences seed the next chunk.  Returns the
emitted chunks and the final current chunk (the carry-over). -/
def greedyAux (maxSize overlap : Nat) :
    List (List Char) → List (List Char) → List (List Char) →
      List (List Char) × List (List Char)
  | [], current, chunks => (chunks, current)
  | s :: rest, current, chunks =>
    if maxSize < sumLen current + s.length && !current.isEmpty then
      greedyAux maxSize overlap rest
        ((takeOverlapRev overlap 0 current.reverse).reverse ++ [s])
        (chunks ++ [joinSpace current])
    else
      greedyAux maxSize overlap rest (current ++ [s]) chunks

/-- process_text_segment (text_processor.py lines 152-205): split the segment
into sentences, prepend the carry-over from the previous segment, and run the
greedy loop. -/
def processTextSegment (maxSize overlap : Nat) (seg : List Char)
    (carry : List (List Char)) : List (List Char) × List (List Char) :=
  greedyAux maxSize overlap
    (carry ++ buildSentences (reSplit (normalizeNewlines seg))) [] []

/-- Fuel-driven helper for segmentsOf; the fuel starts at the text length and
each slice consumes at least one character, so it never runs out. -/
def segmentsOfAux (segSize : Nat) : Nat → List Char → List (List Char)
  | _, [] => []
  | 0, _ => []
  | fuel + 1, l => l.take segSize :: segmentsOfAux segSize fuel (l.drop segSize)

/-- The fixed-size slices text[i : i + segSize] taken by the loop at
text_processor.py lines 212-213. -/
def segmentsOf (segSize : Nat) (l : List Char) : List (List Char) :=
  if segSize = 0 then [] else segmentsOfAux segSize l.length l

/-- Folding process_text_segment over the segments, threading the carry-over
(text_processor.py lines 209-225). -/
def chunkFold (maxSize overlap : Nat) :
    List (List Char) → List (List Char) → List (List Char) × List (List Char)
  | [], carry => ([], carry)
  | seg :: rest, carry =>
    let p := processTextSegment maxSize overlap seg carry
    let q := chunkFold maxSize overlap rest p.2
    (p.1 ++ q.1, q.2)

/-- chunk_text_streaming (text_processor.py lines 134-235): the full streaming
chunker.  Segments of size maxSize * 20 are processed in order and the final
carry-over is emitted as a last chunk when it is nonempty and its join is
nonempty after stripping. -/
def chunkTextStreaming (text : List Char) (maxSize overlap : Nat) :
    List (List Char) :=
  let r := chunkFold maxSize overlap (segmentsOf (maxSize * 20) text) []
  if !r.2.isEmpty && !(stripChars (joinSpace r.2)).isEmpty
  then r.1 ++ [joinSpace r.2] else r.1

/-- The sentence units of a whole text: newlines normalised, split at
punctuation boundaries, stripped, non-final units suffixed with a plus sign.
This is what process_text_segment computes for a single segment. -/
def sentencesOf (text : List Char) : List (List Char) :=
  buildSentences (reSplit (normalizeNewlines text))

/-- Python str.split with no argument: words separated by whitespace runs,
with no empty words.  Used to compare texts ignoring whitespace. -/
def wordsAux : List Char → List Char → List (List Char)
  | [], acc => if acc.isEmpty then [] else [acc.reverse]
  | c :: rest, acc =>
    if isSpaceChar c then
      if acc.isEmpty then wordsAux rest [] else acc.reverse :: wordsAux rest []
    else wordsAux rest (c :: acc)

/-- The word sequence of a text (split on whitespace, empties dropped). -/
def wordsOf (l : List Char) : List (List Char) :=
  wordsAux l []

/-- Concrete input for claim C1: 150 letters a, a sentence boundary, 40
letters b, a sentence boundary, 150 letters c. -/
def c1Text : List Char :=
  List.replicate 150 'a' ++ '.' :: ' ' ::
    (List.replicate 40 'b' ++ '.' :: ' ' :: List.replicate 150 'c')

/-- Concrete input for claim C2: 99 letters a, a sentence boundary, 99
letters b, a sentence boundary, one letter c. -/
def c2Text : List Char :=
  List.replicate 99 'a' ++ '.' :: ' ' ::
    (List.replicate 99 'b' ++ '.' :: ' ' :: ['c'])

/-- Concrete short input used to instantiate the amended claim C1. -/
def c1SmallText : List Char :=
  ['H', 'i', ' ', 't', 'h', 'e', 'r', 'e', '.', ' ', 'O', 'k']

/-! ## Python exception and HTTP error values -/

/-- The Python exceptions relevant to the embedded handlers. -/
inductive PyErr where
  | attributeError (name : String)
  | typeError (msg : String)
  | valueError (msg : String)
deriving DecidableEq, Repr

/-- str(e) for the modelled exceptions. -/
def PyErr.message : PyErr → String
  | .attributeError n => "object has no attribute " ++ n
  | .typeError m => m
  | .valueError m => m

/-- An HTTPException value: status code and detail string. -/
structure HttpError where
  status : Nat
  detail : String
deriving DecidableEq, Repr

/-! ## Configuration: backend/app/core/config.py -/

/-- The complete list of field names declared by the Settings class
(config.py lines 13-67).  Note that no EMBEDDING_MODEL field is declared. -/
def settingsFieldNames : List String :=
  ["APP_NAME", "APP_VERSION", "API_V1_STR", "DEBUG", "DOCS_URL", "REDOC_URL",
   "CORS_ORIGINS", "CORS_CREDENTIALS", "CORS_METHODS", "CORS_HEADERS",
   "POSTGRES_SERVER", "POSTGRES_USER", "POSTGRES_PASSWORD", "POSTGRES_DB",
   "SQLALCHEMY_DATABASE_URI",
   "OPENAI_API_KEY", "OPENAI_MODEL", "OPENAI_TEMPERATURE",
   "MAX_UPLOAD_SIZE", "ALLOWED_EXTENSIONS", "UPLOAD_DIR", "STATIC_DIR",
   "SECRET_KEY", "ALGORITHM", "ACCESS_TOKEN_EXPIRE_MINUTES",
   "VECTOR_DIMENSION", "SIMILARITY_THRESHOLD",
   "CHAT_PREFIX", "PRESENTATIONS_PREFIX"]

/-- The Settings fields declared without a default value (config.py lines 42
and 53); pydantic validation fails at construction iff one of these is not
supplied by the environment. -/
def requiredSettingNames : List String :=
  ["OPENAI_API_KEY", "SECRET_KEY"]

/-- Construction of the Settings instance from an environment (config.py line
70): succeeds iff every required field is supplied; extra environment
variables are ignored and do not become fields. -/
def buildSettings (env : List (String × String)) : Except String Unit :=
  if requiredSettingNames.all (fun n => env.any (fun kv => kv.1 == n))
  then .ok () else .error "validation error: field required"

/-- Python attribute access settings.NAME on the constructed Settings
instance: succeeds only for declared fields, otherwise raises
AttributeError (pydantic keeps undeclared names out of the model). -/
def settingsGetattr (name : String) : Except PyErr String :=
  if name ∈ settingsFieldNames then .ok name else .error (.attributeError name)

/-- ALLOWED_EXTENSIONS (config.py line 48): stored without a leading dot. -/
def allowedExtensions : List (List Char) :=
  [['p', 'p', 't', 'x'], ['p', 'd', 'f'], ['d', 'o', 'c', 'x']]

/-- MAX_UPLOAD_SIZE (config.py line 47): 50 MB. -/
def maxUploadSize : Nat := 50 * 1024 * 1024

/-! ## Embedding service: backend/app/services/embedding_service.py -/

/-- One attempt of the retry loop in create_single_embedding_optimized
(embedding_service.py lines 119-135): evaluating the model keyword reads
settings.EMBEDDING_MODEL before the hosted API is ever called. -/
def embedAttempt : Except PyErr String :=
  settingsGetattr "EMBEDDING_MODEL"

/-- The retry loop of create_single_embedding_optimized: n + 1 attempts, the
failure of the last attempt propagating (embedding_service.py lines 116-142,
max_retries = 3). -/
def retryEmbed : Nat → Except PyErr String
  | 0 => embedAttempt
  | n + 1 =>
    match embedAttempt with
    | .ok v => .ok v
    | .error _ => retryEmbed n

/-- create_single_embedding_optimized (embedding_service.py lines 112-142)
up to the point where a model name has been obtained: three attempts. -/
def createSingleEmbeddingOptimized : Except PyErr String :=
  retryEmbed 2

/-- A Presentation row (db/models.py lines 14-42), restricted to the
attributes the embedded handlers read or write. -/
structure PresentationRow where
  id : Int
  filename : List Char
  file_size : Int
  user_id : String
deriving DecidableEq, Repr

/-- A PresentationEmbedding row (db/models.py lines 44-67); the stored vector
itself stays behind the pgvector boundary and enters only through the
distance function parameter below. -/
structure EmbeddingRow where
  presentation_id : Int
  chunk_index : Nat
  text : List Char
deriving DecidableEq, Repr

/-- One formatted match returned by get_similar_chunks
(embedding_service.py lines 209-216). -/
structure SimilarChunk where
  text : List Char
  similarity : ℚ
  chunk_index : Nat
  presentation_id : Int
deriving DecidableEq, Repr

/-- The database state visible to the embedding service. -/
structure EmbDb where
  presentations : List PresentationRow
  embeddings : List EmbeddingRow

/-- The pgvector query of embedding_service.py lines 197-216: rows of the
presentation ordered ascending by cosine distance to the query embedding,
first topK taken, each formatted with similarity 1 - distance.  The cosine
distance computed by the database extension is the parameter dist. -/
def similarityQueryRows (dist : EmbeddingRow → ℚ) (rows : List EmbeddingRow)
    (pid : Int) (topK : Nat) : List SimilarChunk :=
  (((rows.filter (fun r => r.presentation_id == pid)).insertionSort
      (fun a b => dist a ≤ dist b)).take topK).map
    (fun r => ⟨r.text, 1 - dist r, r.chunk_index, pid⟩)

/-- get_similar_chunks (embedding_service.py lines 158-223): verify the
presentation exists (ValueError otherwise), then read
settings.EMBEDDING_MODEL to embed the query, then run the similarity query.
The except-clause re-raises, so any exception propagates unchanged. -/
def getSimilarChunks (dist : EmbeddingRow → ℚ) (db : EmbDb) (pid : Int)
    (topK : Nat) : Except PyErr (List SimilarChunk) :=
  match db.presentations.find? (fun p => p.id == pid) with
  | none => .error (.valueError "Presentation not found")
  | some _ =>
    match settingsGetattr "EMBEDDING_MODEL" with
    | .error e => .error e
    | .ok _ => .ok (similarityQueryRows dist db.embeddings pid topK)

/-! ## Chat API: backend/app/api/chat.py -/

/-- A ChatHistory row (db/models.py lines 69-87). -/
structure ChatHistoryRow where
  user_id : String
  presentation_id : Int
  message : String
  response : String
  created_at : Int
deriving DecidableEq, Repr

/-- The outbound ChatResponse shape (schemas/chat.py): message, response,
created_at. -/
structure ChatResponseOut where
  message : String
  response : String
  created_at : Int
deriving DecidableEq, Repr

/-- The database state visible to the chat router. -/
structure ChatDb where
  presentations : List PresentationRow
  chatHistory : List ChatHistoryRow

/-- Python semantics of chat.py line 114: the handler evaluates
await select(ChatHistory).where(...).order_by(...).offset(...).limit(...).
A SQLAlchemy Select is not an awaitable, so the await itself raises
TypeError before db.execute is ever reached. -/
def awaitSelectStmt : Except PyErr Unit :=
  .error (.typeError "object Select cannot be used in await expression")

/-- The history query the handler intends (chat.py lines 114-127): rows of
the (user, presentation) pair, newest first, offset and limited, projected
to message, response, created_at. -/
def historyRows (db : ChatDb) (userId : String) (pid : Int)
    (skip limit : Nat) : List ChatResponseOut :=
  ((((db.chatHistory.filter
        (fun r => r.user_id == userId && r.presentation_id == pid)).insertionSort
      (fun a b => b.created_at ≤ a.created_at)).drop skip).take limit).map
    (fun r => ⟨r.message, r.response, r.created_at⟩)

/-- get_chat_history (chat.py lines 77-133): 404 when the presentation does
not exist; otherwise the try-block evaluates the await of the Select value,
whose TypeError the broad except converts into a 500 response carrying
str(e). -/
def getChatHistory (db : ChatDb) (userId : String) (pid : Int)
    (skip limit : Nat) : Except HttpError (List ChatResponseOut) :=
  match db.presentations.find? (fun p => p.id == pid) with
  | none => .error ⟨404, "Presentation not found"⟩
  | some _ =>
    match awaitSelectStmt with
    | .error e => .error ⟨500, e.message⟩
    | .ok _ => .ok (historyRows db userId pid skip limit)

/-! ## Enhanced chat service: backend/app/services/chat_service_2.py and
backend/app/agents/base.py -/

/-- What an agent process call would return: response text and an optional
confidence (chat_service_2.py lines 214-216 reads both with defaults). -/
structure AgentResult where
  response : String
  confidence : Option ℚ
deriving DecidableEq, Repr

/-- The result dict built by ChatService._handle_analysis_request
(chat_service_2.py lines 213-218). -/
structure AnalysisResponse where
  response : String
  type : String
  confidence : ℚ
  sources : List Nat
deriving DecidableEq, Repr

/-- The attribute names available on a PresentationAnalyst instance: the two
instance attributes set by BaseAgent.__init__ and the methods defined by
BaseAgent (agents/base.py lines 26-171) or overridden by PresentationAnalyst
(lines 173-212).  No method named process is defined anywhere in the
hierarchy. -/
def presentationAnalystAttrs : List String :=
  ["llm", "prompt_template", "__init__", "_create_prompt_template",
   "retrieve_context", "format_context", "create_workflow",
   "retrieve_node", "analyze_node", "generate_node"]

/-- Python attribute lookup on the agent followed by the call: returns the
call result when the attribute exists, raises AttributeError otherwise. -/
def callAgentMethod (attrs : List String) (name : String)
    (callResult : AgentResult) : Except PyErr AgentResult :=
  if name ∈ attrs then .ok callResult else .error (.attributeError name)

/-- ChatService._handle_analysis_request (chat_service_2.py lines 168-218):
builds the analysis prompt, invokes self.presentation_analyst.process, and
packages the result with type analysis, confidence defaulting to 0.8, and
the chunk indices of the retrieved chunks as sources.  The agentReply
parameter stands for what the hosted agent call would return. -/
def handleAnalysisRequest (agentReply : AgentResult)
    (similarChunks : List SimilarChunk) : Except PyErr AnalysisResponse :=
  match callAgentMethod presentationAnalystAttrs "process" agentReply with
  | .error e => .error e
  | .ok result =>
    .ok { response := result.response
          type := "analysis"
          confidence := result.confidence.getD (4 / 5 : ℚ)
          sources := similarChunks.map (fun c => c.chunk_index) }

/-! ## Presentations API: backend/app/api/presentations.py -/

/-- ASCII str.lower on one character. -/
def asciiLower (c : Char) : Char :=
  if 'A' ≤ c ∧ c ≤ 'Z' then Char.ofNat (c.toNat + 32) else c

/-- os.path.splitext: the final path component (the chars after the last
slash). -/
def splitextBase (p : List Char) : List Char :=
  (p.reverse.takeWhile (fun c => c != '/')).reverse

/-- os.path.splitext, extension part, continued: the reversed basename is
scanned up to its first dot, which is the last dot of the basename. -/
def splitextExt (p : List Char) : List Char :=
  match (splitextBase p).reverse.dropWhile (fun c => c != '.') with
  | [] => []
  | _ :: before =>
    if before.any (fun c => c != '.') then
      '.' :: ((splitextBase p).reverse.takeWhile (fun c => c != '.')).reverse
    else []

/-- The rejection raised at presentations.py lines 62-66. -/
def fileTypeNotAllowedErr : HttpError :=
  ⟨400, "File type not allowed. Allowed types: pptx, pdf, docx"⟩

/-- The rejection raised at presentations.py lines 68-72. -/
def fileTooLargeErr : HttpError :=
  ⟨400, "File too large. Maximum size: 50 MB"⟩

/-- validate_file (presentations.py lines 47-73): lower-cased splitext
extension checked against ALLOWED_EXTENSIONS, then the byte length against
MAX_UPLOAD_SIZE; returns the content on success. -/
def validateFile (filename : List Char) (content : List Nat) :
    Except HttpError (List Nat) :=
  if ((splitextExt filename).map asciiLower) ∈ allowedExtensions then
    if maxUploadSize < content.length then .error fileTooLargeErr
    else .ok content
  else .error fileTypeNotAllowedErr

/-- upload_presentation (presentations.py lines 185-241): validation first;
only on success is the file saved and a Presentation row added and
committed.  Returns the handler result together with the table state. -/
def uploadPresentation (filename : List Char) (content : List Nat)
    (db : List PresentationRow) :
    Except HttpError PresentationRow × List PresentationRow :=
  match validateFile filename content with
  | .error e => (.error e, db)
  | .ok c =>
    let row : PresentationRow :=
      ⟨Int.ofNat db.length, filename, Int.ofNat c.length, "default_user"⟩
    (.ok row, db ++ [row])

/-- The filesystem-resident chunked-upload session: metadata.json fields plus
the stored chunk files (presentations.py lines 280-289 and 337). -/
structure UploadSession where
  filename : List Char
  fileSize : Int
  totalChunks : Int
  chunks : List Int
  created : Int
  lastUpdated : Option Int
  files : List (Int × List Nat)
deriving DecidableEq, Repr

/-- Writing the per-index chunk file (presentations.py line 340): an existing
file for the index is overwritten. -/
def writeChunkFile (files : List (Int × List Nat)) (i : Int)
    (body : List Nat) : List (Int × List Nat) :=
  (files.filter (fun f => f.1 != i)) ++ [(i, body)]

/-- The success payload of upload_chunk (presentations.py lines 354-358). -/
structure ChunkUploadResp where
  chunksReceived : Nat
  totalChunks : Int
deriving DecidableEq, Repr

/-- upload_chunk (presentations.py lines 293-358) for an existing session:
reject indices outside the declared range before anything is written; on a
valid index write the chunk file, and record the index and refresh
lastUpdated only if the index is new. -/
def uploadChunk (s : UploadSession) (idx : Int) (body : List Nat)
    (now : Int) : Except HttpError ChunkUploadResp × UploadSession :=
  if idx < 0 ∨ s.totalChunks ≤ idx then
    (.error ⟨400, "Invalid chunk index"⟩, s)
  else
    let files1 := writeChunkFile s.files idx body
    let s1 :=
      if idx ∈ s.chunks then { s with files := files1 }
      else { s with
             files := files1
             chunks := s.chunks ++ [idx]
             lastUpdated := some now }
    (.ok ⟨s1.chunks.length, s1.totalChunks⟩, s1)

/-- set(range(totalChunks)) as an ascending list (presentations.py line
397). -/
def expectedChunkList (total : Int) : List Int :=
  (List.range total.toNat).map Int.ofNat

/-- Equality of the received chunk-index set with the expected full range
(presentations.py line 400 compares the two sets). -/
def receivedSetEqExpected (chunks : List Int) (total : Int) : Bool :=
  ((expectedChunkList total).all (fun i => decide (i ∈ chunks))) &&
    (chunks.all (fun i => decide (i ∈ expectedChunkList total)))

/-- expected minus received (presentations.py line 401), enumerated in
ascending order. -/
def missingChunks (chunks : List Int) (total : Int) : List Int :=
  (expectedChunkList total).filter (fun i => decide (i ∉ chunks))

/-- The failure modes of finalize_upload that the claims exercise. -/
inductive FinalizeError where
  | incompleteUpload (status : Nat) (missingNamed : List Int)
deriving DecidableEq, Repr

/-- Reading one stored chunk file during assembly (presentations.py lines
414-417). -/
def chunkFileOf (files : List (Int × List Nat)) (i : Int) : List Nat :=
  ((files.find? (fun f => f.1 == i)).map Prod.snd).getD []

/-- The outcome of finalize_upload: the HTTP-level result, the Presentation
table afterwards, and the assembled file if one was written. -/
structure FinalizeResult where
  response : Except FinalizeError PresentationRow
  db : List PresentationRow
  assembled : Option (List Nat)
deriving Repr

/-- finalize_upload (presentations.py lines 360-447) for an existing session:
reject with a 400 incomplete-upload error naming the first ten missing
indices when the received set differs from the expected full range (before
any assembly or row creation); otherwise concatenate the chunk files over
sorted(metadata chunks) and create the Presentation row with the declared
file size. -/
def finalizeUpload (s : UploadSession) (db : List PresentationRow) :
    FinalizeResult :=
  if receivedSetEqExpected s.chunks s.totalChunks then
    let ordered := List.insertionSort (fun a b => a ≤ b) s.chunks
    let file := (ordered.map (chunkFileOf s.files)).flatten
    let row : PresentationRow :=
      ⟨Int.ofNat db.length, s.filename, s.fileSize, "default_user"⟩
    { response := .ok row, db := db ++ [row], assembled := some file }
  else
    { response := .error (.incompleteUpload 400
        ((missingChunks s.chunks s.totalChunks).take 10))
      db := db, assembled := none }

/-! ## Concrete inputs used by counterexamples and witnesses -/

/-- A chat database holding one presentation with id 1, for the C4 witness. -/
def c4Db : ChatDb :=
  ⟨[⟨1, ['a'], 3, "u"⟩], []⟩

/-- An embedding database holding one presentation with id 1. -/
def c7DbFound : EmbDb :=
  ⟨[⟨1, ['a'], 3, "u"⟩], []⟩

/-- An empty embedding database. -/
def c7DbEmpty : EmbDb :=
  ⟨[], []⟩

/-- An upload session that declared 3 chunks but received only indices 0 and
2; index 1 is missing. -/
def c8SessionIncomplete : UploadSession :=
  ⟨['f'], 10, 3, [0, 2], 100, some 150, [(0, [1, 2]), (2, [5])]⟩

/-- An upload session that declared 3 chunks and received all of them, out of
order. -/
def c8SessionFull : UploadSession :=
  ⟨['f'], 10, 3, [2, 0, 1], 100, some 150, [(0, [1, 2]), (1, [3]), (2, [5])]⟩

/-- An upload session that declared 3 chunks and received indices 0 and 2. -/
def c9Session : UploadSession :=
  ⟨['f', '.', 'p', 'p', 't', 'x'], 10, 3, [0, 2], 100, some 150,
   [(0, [1, 2]), (2, [5])]⟩

/-- A filename with one of the supposedly allowed extensions. -/
def c10FileName : List Char :=
  ['b', 'i', 'g', '.', 'p', 'p', 't', 'x']

/-- A file body one byte larger than MAX_UPLOAD_SIZE. -/
def c10Content : List Nat :=
  List.replicate (maxUploadSize + 1) 0

/-! ## Lemmas about the chunker -/

theorem sumLen_nil : sumLen [] = 0 := rfl

theorem sumLen_cons (s : List Char) (l : List (List Char)) :
    sumLen (s :: l) = s.length + sumLen l := by
  simp [sumLen]

theorem sumLen_append (l1 l2 : List (List Char)) :
    sumLen (l1 ++ l2) = sumLen l1 + sumLen l2 := by
  simp [sumLen]

theorem reSplitAux_length_pos (inp : List Char) :
    ∀ (acc pp : List Char) (w : Bool), 0 < (reSplitAux inp acc pp w).length := by
  induction inp with
  | nil => intro acc pp w; simp [reSplitAux]
  | cons c rest ih =>
    intro acc pp w
    simp only [reSplitAux]
    repeat' split
    all_goals first | exact ih _ _ _ | simp

theorem reSplitAux_sumLen (inp : List Char) :
    ∀ (acc pp : List Char) (w : Bool),
      sumLen (reSplitAux inp acc pp w) + 2 * (reSplitAux inp acc pp w).length ≤
        inp.length + acc.length + pp.length + 2 := by
  induction inp with
  | nil =>
    intro acc pp w
    simp [reSplitAux, sumLen]
  | cons c rest ih =>
    intro acc pp w
    simp only [reSplitAux, List.length_cons]
    split
    · split
      · have := ih acc pp true
        omega
      · split
        · have := ih [] [c] false
          simp at this
          omega
        · have := ih [c] [] false
          simp at this
          omega
    · rename_i hw
      split
      · rename_i hpp
        split
        · have := ih acc [c] false
          simp at this
          omega
        · have := ih (c :: acc) [] false
          simp at this
          omega
      · rename_i hpp
        have hpplen : 0 < pp.length := by
          cases pp with
          | nil => simp at hpp
          | cons x xs => simp
        split
        · have := ih acc (c :: pp) false
          simp at this
          omega
        · split
          · have hrec := ih [] [] true
            have hlenpos := reSplitAux_length_pos rest [] [] true
            simp only [sumLen_cons, List.length_cons, List.length_reverse]
            simp at hrec
            omega
          · have := ih (c :: (pp ++ acc)) [] false
            simp at this
            omega

theorem stripChars_length_le (l : List Char) :
    (stripChars l).length ≤ l.length := by
  unfold stripChars
  calc ((l.dropWhile isSpaceChar).reverse.dropWhile isSpaceChar).reverse.length
      = ((l.dropWhile isSpaceChar).reverse.dropWhile isSpaceChar).length := by
        simp
    _ ≤ (l.dropWhile isSpaceChar).reverse.length :=
        (List.dropWhile_sublist _).length_le
    _ = (l.dropWhile isSpaceChar).length := by simp
    _ ≤ l.length := (List.dropWhile_sublist _).length_le

theorem buildSentences_sumLen :
    ∀ pieces : List (List Char), pieces ≠ [] →
      sumLen (buildSentences pieces) + 1 ≤ sumLen pieces + pieces.length := by
  intro pieces
  induction pieces with
  | nil => intro h; exact absurd rfl h
  | cons p rest ih =>
    intro _
    cases rest with
    | nil =>
      simp only [buildSentences]
      split
      · simp [sumLen]
      · have := stripChars_length_le p
        simp [sumLen]
        omega
    | cons q rest2 =>
      have hr := ih (by simp)
      simp only [sumLen_cons, List.length_cons] at hr
      simp only [buildSentences]
      split
      · simp only [sumLen_cons, List.length_cons]
        omega
      · have := stripChars_length_le p
        simp only [sumLen_cons, List.length_cons, List.length_append,
          List.length_singleton, List.length_nil, sumLen_nil]
        omega

theorem normalizeNewlines_length (l : List Char) :
    (normalizeNewlines l).length = l.length := by
  simp [normalizeNewlines]

theorem sentencesOf_sumLen_le (text : List Char) :
    sumLen (sentencesOf text) ≤ text.length := by
  unfold sentencesOf reSplit
  have hA := reSplitAux_sumLen (normalizeNewlines text) [] [] false
  have hP := reSplitAux_length_pos (normalizeNewlines text) [] [] false
  set pieces := reSplitAux (normalizeNewlines text) [] [] false with hp
  have hne : pieces ≠ [] := by
    cases h : pieces with
    | nil => rw [h] at hP; simp at hP
    | cons a b => simp
  have hB := buildSentences_sumLen pieces hne
  have hN := normalizeNewlines_length text
  simp only [List.length_nil] at hA
  omega

theorem greedyAux_no_split (maxB ov : Nat) :
    ∀ (sents current chunks : List (List Char)),
      sumLen current + sumLen sents ≤ maxB →
      greedyAux maxB ov sents current chunks = (chunks, current ++ sents) := by
  intro sents
  induction sents with
  | nil => intro current chunks _; simp [greedyAux]
  | cons s rest ih =>
    intro current chunks hle
    rw [sumLen_cons] at hle
    have hcond : (decide (maxB < sumLen current + s.length) &&
        !current.isEmpty) = false := by
      have : ¬ maxB < sumLen current + s.length := by omega
      simp [this]
    simp only [greedyAux, hcond, Bool.false_eq_true, if_false]
    rw [ih (current ++ [s]) chunks
      (by rw [sumLen_append, sumLen_cons, sumLen_nil]; omega)]
    simp

theorem segmentsOf_nil (n : Nat) : segmentsOf n [] = [] := by
  unfold segmentsOf
  split
  · rfl
  · simp [segmentsOfAux]

theorem segmentsOf_single (n : Nat) (l : List Char) (hn : n ≠ 0)
    (hne : l ≠ []) (hlen : l.length ≤ n) : segmentsOf n l = [l] := by
  unfold segmentsOf
  rw [if_neg hn]
  cases l with
  | nil => exact absurd rfl hne
  | cons c cs =>
    simp only [List.length_cons, segmentsOfAux]
    rw [List.take_of_length_le (by simpa using hlen),
      List.drop_eq_nil_of_le (by simpa using hlen)]
    cases cs.length <;> rfl

theorem mem_dropWhile_of_not (p : Char → Bool) (l : List Char) (c : Char)
    (hc : c ∈ l) (hpc : p c = false) : c ∈ l.dropWhile p := by
  induction l with
  | nil => simp at hc
  | cons x xs ih =>
    rw [List.dropWhile_cons]
    split
    · rename_i hpx
      rcases List.mem_cons.mp hc with rfl | h
      · rw [hpx] at hpc; simp at hpc
      · exact ih h
    · exact hc

theorem stripChars_ne_nil_of_nonspace (l : List Char) (c : Char)
    (hc : c ∈ l) (hcs : isSpaceChar c = false) : stripChars l ≠ [] := by
  unfold stripChars
  have h1 : c ∈ l.dropWhile isSpaceChar := mem_dropWhile_of_not _ _ _ hc hcs
  have h2 : c ∈ (l.dropWhile isSpaceChar).reverse := List.mem_reverse.mpr h1
  have h3 : c ∈ (l.dropWhile isSpaceChar).reverse.dropWhile isSpaceChar :=
    mem_dropWhile_of_not _ _ _ h2 hcs
  have h4 := List.ne_nil_of_mem h3
  simpa using h4

theorem strip_has_nonspace (l : List Char) (hne : stripChars l ≠ []) :
    ∃ c ∈ stripChars l, isSpaceChar c = false := by
  unfold stripChars at hne ⊢
  set d2 := (l.dropWhile isSpaceChar).reverse.dropWhile isSpaceChar with hd2
  have hd2ne : d2 ≠ [] := by
    intro h
    rw [h] at hne
    simp at hne
  refine ⟨d2.head hd2ne, List.mem_reverse.mpr (List.head_mem hd2ne), ?_⟩
  exact List.head_dropWhile_not isSpaceChar
    ((l.dropWhile isSpaceChar).reverse) hd2ne

theorem buildSentences_mem_nonspace :
    ∀ (pieces : List (List Char)) (s : List Char), s ∈ buildSentences pieces →
      ∃ c ∈ s, isSpaceChar c = false := by
  intro pieces
  induction pieces with
  | nil => intro s hs; simp [buildSentences] at hs
  | cons p rest ih =>
    intro s hs
    cases rest with
    | nil =>
      simp only [buildSentences] at hs
      split at hs
      · simp at hs
      · rename_i hstrip
        rw [List.mem_singleton] at hs
        subst hs
        exact strip_has_nonspace p (by simpa using hstrip)
    | cons q rest2 =>
      simp only [buildSentences] at hs
      split at hs
      · exact ih s hs
      · rcases List.mem_cons.mp hs with rfl | h
        · exact ⟨'+', List.mem_append_right _ (by simp), by decide⟩
        · exact ih s h

theorem joinSpace_mem_left (s : List Char) (rest : List (List Char))
    (c : Char) (hc : c ∈ s) : c ∈ joinSpace (s :: rest) := by
  cases rest with
  | nil => simpa [joinSpace] using hc
  | cons t ts => exact List.mem_append_left _ hc

/-! ## Claims C1 and C2: the streaming chunker -/

/-- C1, counterexample: for the text of 150 a, a sentence boundary, 40 b, a
sentence boundary, 150 c, with max_chunk_size 200 and the default overlap
100, the word sequence of the re-joined chunks differs from the original
word sequence: the sentence-ending periods have been replaced by plus signs
and the 40-b sentence is repeated by the overlap carry. -/
theorem c1_chunking_counterexample :
    wordsOf (joinSpace (chunkTextStreaming c1Text 200 100)) ≠ wordsOf c1Text := by
  decide

/-- C1 as amended: for any text no longer than max_chunk_size, the streaming
chunker emits at most one chunk, namely the space-join of the text's
sentence units (newlines normalised, split at punctuation boundaries,
stripped, every non-final unit suffixed with a plus sign in place of its
removed sentence ending); re-joining therefore reproduces exactly that
transformed sentence sequence.  For longer texts re-joining does not
reproduce the original word sequence, since sentence endings become plus
signs and the overlap repeats trailing sentences at each chunk boundary, as
the counterexample shows. -/
theorem c1_amended_short_text_single_chunk (text : List Char) (maxSize : Nat)
    (hpos : 0 < maxSize) (hlen : text.length ≤ maxSize) :
    chunkTextStreaming text maxSize 100 =
      if sentencesOf text = [] then [] else [joinSpace (sentencesOf text)] := by
  rcases eq_or_ne text [] with rfl | hne
  · have hS : sentencesOf ([] : List Char) = [] := by decide
    rw [hS]
    simp [chunkTextStreaming, segmentsOf_nil, chunkFold]
  · have hsegs : segmentsOf (maxSize * 20) text = [text] :=
      segmentsOf_single _ _ (by omega) hne (by omega)
    have hproc : processTextSegment maxSize 100 text [] =
        ([], sentencesOf text) := by
      unfold processTextSegment
      rw [List.nil_append]
      have hb : sumLen ([] : List (List Char)) +
          sumLen (buildSentences (reSplit (normalizeNewlines text))) ≤ maxSize := by
        have := sentencesOf_sumLen_le text
        unfold sentencesOf at this
        simp [sumLen_nil]
        omega
      rw [greedyAux_no_split maxSize 100 _ [] [] hb]
      rfl
    cases hS : sentencesOf text with
    | nil =>
      rw [hS] at hproc
      simp [chunkTextStreaming, hsegs, chunkFold, hproc]
    | cons s0 rest =>
      rw [hS] at hproc
      have hs0 : s0 ∈ buildSentences (reSplit (normalizeNewlines text)) := by
        have : s0 ∈ sentencesOf text := by rw [hS]; exact List.mem_cons_self _ _
        simpa [sentencesOf] using this
      obtain ⟨c, hc, hcs⟩ := buildSentences_mem_nonspace _ s0 hs0
      have hjoin : c ∈ joinSpace (s0 :: rest) := joinSpace_mem_left _ _ _ hc
      have hstrip : stripChars (joinSpace (s0 :: rest)) ≠ [] :=
        stripChars_ne_nil_of_nonspace _ _ hjoin hcs
      have hstripb : (stripChars (joinSpace (s0 :: rest))).isEmpty = false := by
        cases h : stripChars (joinSpace (s0 :: rest)) with
        | nil => exact absurd h hstrip
        | cons a b => simp
      simp [chunkTextStreaming, hsegs, chunkFold, hproc, hstripb]

/-- C1, witness for the amended theorem at the concrete text Hi there. Ok
with max_chunk_size 1000. -/
theorem c1_amended_witness :
    (0 : Nat) < 1000 ∧ c1SmallText.length ≤ 1000 ∧
      chunkTextStreaming c1SmallText 1000 100 =
        (if sentencesOf c1SmallText = [] then []
         else [joinSpace (sentencesOf c1SmallText)]) :=
  ⟨by decide, by decide,
    c1_amended_short_text_single_chunk c1SmallText 1000 (by decide) (by decide)⟩

/-- C2: evaluation of the chunker at the failing input: the text of 99 a, a
sentence boundary, 99 b, a sentence boundary, one c, chunked with
max_chunk_size 200, yields a first chunk of 201 characters, because the
joining spaces are not counted against the limit; so a chunk exceeds
max_chunk_size, contrary to the claim and the docstring of
chunk_text_streaming. -/
theorem c2_chunk_exceeds_max_size :
    (chunkTextStreaming c2Text 200 100).map List.length = [201, 102] ∧
      ∃ chunk ∈ chunkTextStreaming c2Text 200 100, 200 < chunk.length := by
  constructor
  · decide
  · decide

/-! ## Lemmas about upload validation -/

theorem splitextExt_structure (p : List Char) :
    splitextExt p = [] ∨ ∃ t, splitextExt p = '.' :: t := by
  unfold splitextExt
  split
  · exact Or.inl rfl
  · split
    · exact Or.inr ⟨_, rfl⟩
    · exact Or.inl rfl

theorem validateFile_always_rejects (filename : List Char)
    (content : List Nat) :
    validateFile filename content = .error fileTypeNotAllowedErr := by
  unfold validateFile
  rw [if_neg]
  intro hmem
  rcases splitextExt_structure filename with h | ⟨t, h⟩
  · rw [h] at hmem
    simp [allowedExtensions] at hmem
  · rw [h] at hmem
    simp only [List.map_cons, show asciiLower '.' = '.' from by decide] at hmem
    simp [allowedExtensions] at hmem

/-! ## Claims C3 and C10: upload validation -/

/-- C3: for every filename and content, POST /upload rejects the file with
the 400 File-type-not-allowed error and creates no Presentation row: the
extension extracted by os.path.splitext carries a leading dot (or is empty),
while every entry of ALLOWED_EXTENSIONS is stored without one, so the
membership test never succeeds. -/
theorem c3_upload_always_rejected (filename : List Char) (content : List Nat)
    (db : List PresentationRow) :
    (uploadPresentation filename content db).1 = .error fileTypeNotAllowedErr ∧
      (uploadPresentation filename content db).2 = db ∧
      fileTypeNotAllowedErr.status = 400 := by
  unfold uploadPresentation
  rw [validateFile_always_rejects]
  exact ⟨rfl, rfl, rfl⟩

/-- C10: evaluation at the failing input: a file named big.pptx whose body is
one byte over MAX_UPLOAD_SIZE is rejected before any save and no row is
created, but with the File-type-not-allowed error, not the File-too-large
one: the extension check runs first and (because of the leading-dot
mismatch) rejects every filename, so the size branch is unreachable. -/
theorem c10_oversized_gets_wrong_error (db : List PresentationRow) :
    uploadPresentation c10FileName c10Content db =
        (.error fileTypeNotAllowedErr, db) ∧
      maxUploadSize < c10Content.length ∧
      fileTypeNotAllowedErr ≠ fileTooLargeErr := by
  refine ⟨?_, ?_, by decide⟩
  · unfold uploadPresentation
    rw [validateFile_always_rejects]
  · rw [c10Content, List.length_replicate]
    omega

/-! ## Claim C4: GET /history -/

/-- C4: evaluation at the failing input: whenever the presentation exists,
get_chat_history returns the 500 response produced by the TypeError of
awaiting the Select value at chat.py line 114, never the history rows the
claim describes. -/
theorem c4_history_always_500 (db : ChatDb) (userId : String) (pid : Int)
    (skip limit : Nat)
    (h : db.presentations.any (fun p => p.id == pid) = true) :
    getChatHistory db userId pid skip limit =
      .error ⟨500, "object Select cannot be used in await expression"⟩ := by
  unfold getChatHistory
  obtain ⟨v, hv⟩ := Option.isSome_iff_exists.mp
    (List.find?_isSome.mpr (List.any_eq_true.mp h))
  rw [hv]
  rfl

/-- C4, witness: a database holding presentation 1 makes the 500 response
concrete. -/
theorem c4_history_witness :
    getChatHistory c4Db "u" 1 0 50 =
      .error ⟨500, "object Select cannot be used in await expression"⟩ :=
  c4_history_always_500 c4Db "u" 1 0 50 (by decide)

/-! ## Claim C5: the analysis handler -/

/-- C5: evaluation at the failing input: _handle_analysis_request looks up a
process method on the PresentationAnalyst agent, but neither BaseAgent nor
PresentationAnalyst defines one, so the handler raises AttributeError for
every input instead of returning the analysis result dict. -/
theorem c5_analysis_handler_raises (agentReply : AgentResult)
    (similarChunks : List SimilarChunk) :
    handleAnalysisRequest agentReply similarChunks =
        .error (.attributeError "process") ∧
      "process" ∉ presentationAnalystAttrs := by
  exact ⟨rfl, by decide⟩

/-! ## Claim C6: the embedding-model setting -/

/-- C6: evaluation at the failing input: the Settings class declares no
EMBEDDING_MODEL field, so constructing the settings succeeds with only the
two genuinely required fields supplied, while every embedding call, which
reads settings.EMBEDDING_MODEL, exhausts its three attempts on
AttributeError. -/
theorem c6_embedding_model_not_declared :
    buildSettings [("OPENAI_API_KEY", "k"), ("SECRET_KEY", "s")] = .ok () ∧
      "EMBEDDING_MODEL" ∉ settingsFieldNames ∧
      createSingleEmbeddingOptimized =
        .error (.attributeError "EMBEDDING_MODEL") := by
  exact ⟨rfl, by decide, rfl⟩

/-! ## Claim C7: similarity search -/

/-- C7: evaluation at the failing input: for a presentation id that does not
exist, get_similar_chunks raises the not-found ValueError as the claim says;
but for every existing presentation it raises AttributeError while reading
settings.EMBEDDING_MODEL to embed the query, and never reaches the ordered
similarity query or the 1 - distance conversion. -/
theorem c7_similarity_search_raises (dist : EmbeddingRow → ℚ) (db : EmbDb)
    (pid : Int) (topK : Nat) :
    (db.presentations.any (fun p => p.id == pid) = true →
      getSimilarChunks dist db pid topK =
        .error (.attributeError "EMBEDDING_MODEL")) ∧
    (db.presentations.any (fun p => p.id == pid) = false →
      getSimilarChunks dist db pid topK =
        .error (.valueError "Presentation not found")) := by
  constructor
  · intro h
    unfold getSimilarChunks
    obtain ⟨v, hv⟩ := Option.isSome_iff_exists.mp
      (List.find?_isSome.mpr (List.any_eq_true.mp h))
    rw [hv]
    rfl
  · intro h
    have hnone : db.presentations.find? (fun p => p.id == pid) = none := by
      rw [List.find?_eq_none]
      intro x hx hpx
      have hany : db.presentations.any (fun p => p.id == pid) = true :=
        List.any_eq_true.mpr ⟨x, hx, hpx⟩
      rw [h] at hany
      simp at hany
    unfold getSimilarChunks
    rw [hnone]

/-- C7, witness: concrete databases with and without presentation 1. -/
theorem c7_similarity_witness :
    getSimilarChunks (fun _ => 0) c7DbFound 1 3 =
        .error (.attributeError "EMBEDDING_MODEL") ∧
      getSimilarChunks (fun _ => 0) c7DbEmpty 1 3 =
        .error (.valueError "Presentation not found") :=
  ⟨(c7_similarity_search_raises (fun _ => 0) c7DbFound 1 3).1 (by decide),
   (c7_similarity_search_raises (fun _ => 0) c7DbEmpty 1 3).2 (by decide)⟩

/-! ## Lemmas about finalize-upload -/

theorem expectedChunkList_nodup (total : Int) :
    (expectedChunkList total).Nodup :=
  (List.nodup_range total.toNat).map (fun _ _ h => Int.ofNat.inj h)

theorem expectedChunkList_sorted (total : Int) :
    List.Sorted (fun a b => a ≤ b) (expectedChunkList total) :=
  (List.pairwise_lt_range total.toNat).map Int.ofNat
    (fun _ _ hab => Int.ofNat_le.mpr (Nat.le_of_lt hab))

theorem receivedSetEq_mem (chunks : List Int) (total : Int)
    (h : receivedSetEqExpected chunks total = true) :
    ∀ i : Int, i ∈ chunks ↔ i ∈ expectedChunkList total := by
  unfold receivedSetEqExpected at h
  rw [Bool.and_eq_true, List.all_eq_true, List.all_eq_true] at h
  intro i
  constructor
  · intro hi
    exact of_decide_eq_true (h.2 i hi)
  · intro hi
    exact of_decide_eq_true (h.1 i hi)

theorem sortedChunks_eq_expected (chunks : List Int) (total : Int)
    (hnd : chunks.Nodup) (h : receivedSetEqExpected chunks total = true) :
    List.insertionSort (fun a b => a ≤ b) chunks = expectedChunkList total := by
  have hperm : (List.insertionSort (fun a b => a ≤ b) chunks).Perm
      (expectedChunkList total) :=
    (List.perm_insertionSort _ chunks).trans
      ((List.perm_ext_iff_of_nodup hnd (expectedChunkList_nodup total)).mpr
        (receivedSetEq_mem chunks total h))
  exact List.eq_of_perm_of_sorted hperm
    (List.sorted_insertionSort _ chunks) (expectedChunkList_sorted total)

theorem missing_take_ne_nil (chunks : List Int) (total : Int)
    (hsub : ∀ i ∈ chunks, i ∈ expectedChunkList total)
    (h : receivedSetEqExpected chunks total = false) :
    (missingChunks chunks total).take 10 ≠ [] := by
  have hex : ∃ i ∈ expectedChunkList total, i ∉ chunks := by
    by_contra hall
    push_neg at hall
    have htrue : receivedSetEqExpected chunks total = true := by
      unfold receivedSetEqExpected
      rw [Bool.and_eq_true, List.all_eq_true, List.all_eq_true]
      exact ⟨fun i hi => decide_eq_true (hall i hi),
             fun i hi => decide_eq_true (hsub i hi)⟩
    rw [htrue] at h
    simp at h
  obtain ⟨i, hiE, hiC⟩ := hex
  have hmem : i ∈ missingChunks chunks total := by
    unfold missingChunks
    rw [List.mem_filter]
    exact ⟨hiE, decide_eq_true hiC⟩
  cases hm : missingChunks chunks total with
  | nil => rw [hm] at hmem; simp at hmem
  | cons a b => simp [hm, List.take_succ_cons]

/-! ## Claim C8: finalize-upload -/

/-- C8: finalizing a session whose received index set is strictly contained
in the declared full range fails with the 400 incomplete-upload error naming
the first (up to ten, at least one) missing indices, and leaves the
Presentation table untouched with no file assembled; finalizing with exactly
the full index set succeeds, appends one Presentation row, and assembles the
file by concatenating the chunk files in ascending index order. -/
theorem c8_finalize_upload_contract (s : UploadSession)
    (db : List PresentationRow) :
    ((∀ i ∈ s.chunks, i ∈ expectedChunkList s.totalChunks) →
      receivedSetEqExpected s.chunks s.totalChunks = false →
        finalizeUpload s db =
          ⟨.error (.incompleteUpload 400
              ((missingChunks s.chunks s.totalChunks).take 10)), db, none⟩ ∧
          (missingChunks s.chunks s.totalChunks).take 10 ≠ []) ∧
    (s.chunks.Nodup →
      receivedSetEqExpected s.chunks s.totalChunks = true →
        finalizeUpload s db =
          ⟨.ok ⟨Int.ofNat db.length, s.filename, s.fileSize, "default_user"⟩,
           db ++ [⟨Int.ofNat db.length, s.filename, s.fileSize, "default_user"⟩],
           some (((expectedChunkList s.totalChunks).map
              (chunkFileOf s.files)).flatten)⟩) := by
  constructor
  · intro hsub hne
    refine ⟨?_, missing_take_ne_nil s.chunks s.totalChunks hsub hne⟩
    unfold finalizeUpload
    rw [hne]
    rfl
  · intro hnd heq
    have hsorted := sortedChunks_eq_expected s.chunks s.totalChunks hnd heq
    unfold finalizeUpload
    rw [heq, if_pos rfl, hsorted]

/-- C8, witness: the two concrete sessions, one missing index 1 and one
complete with chunks received out of order. -/
theorem c8_finalize_witness :
    (finalizeUpload c8SessionIncomplete [] =
        ⟨.error (.incompleteUpload 400
            ((missingChunks c8SessionIncomplete.chunks
                c8SessionIncomplete.totalChunks).take 10)), [], none⟩ ∧
        (missingChunks c8SessionIncomplete.chunks
            c8SessionIncomplete.totalChunks).take 10 ≠ []) ∧
      finalizeUpload c8SessionFull [] =
        ⟨.ok ⟨Int.ofNat ([] : List PresentationRow).length,
            c8SessionFull.filename, c8SessionFull.fileSize, "default_user"⟩,
         [] ++ [⟨Int.ofNat ([] : List PresentationRow).length,
            c8SessionFull.filename, c8SessionFull.fileSize, "default_user"⟩],
         some (((expectedChunkList c8SessionFull.totalChunks).map
            (chunkFileOf c8SessionFull.files)).flatten)⟩ :=
  ⟨(c8_finalize_upload_contract c8SessionIncomplete []).1 (by decide) (by decide),
   (c8_finalize_upload_contract c8SessionFull []).2 (by decide) (by decide)⟩

/-! ## Claim C9: chunk-index validation -/

/-- C9: uploading a chunk whose index lies outside the declared range of an
existing session is rejected with the 400 Invalid-chunk-index error and the
session is returned unchanged: received set, lastUpdated timestamp and
stored chunk files are all exactly as before, since the check precedes every
write. -/
theorem c9_invalid_chunk_index_atomic (s : UploadSession) (idx : Int)
    (body : List Nat) (now : Int) (h : idx < 0 ∨ s.totalChunks ≤ idx) :
    uploadChunk s idx body now =
      (.error ⟨400, "Invalid chunk index"⟩, s) := by
  unfold uploadChunk
  rw [if_pos h]

/-- C9, witness: index 5 against a session that declared 3 chunks. -/
theorem c9_invalid_chunk_witness :
    uploadChunk c9Session 5 [9] 200 =
      (.error ⟨400, "Invalid chunk index"⟩, c9Session) :=
  c9_invalid_chunk_index_atomic c9Session 5 [9] 200 (by decide)

end MSA
